import Mathlib

/-!
Verification development for the topic-quality evaluation engine of
`eval_lda.py` (topic-labeling repository).

The Python source is shallowly embedded:
* numpy float vectors become `List ℝ` (IEEE floating point is modelled by
  the reals; the benign float imprecision the spec accepts is out of scope);
* a numpy NaN result of an otherwise successful call is modelled as `none`;
* a raised Python exception is modelled as `Except.error`;
* pandas Series/DataFrame values become Lean lists.
-/

namespace EvalLda

/-- Dot product of two real vectors, `np.dot` on 1-d arrays.  Trailing entries
of the longer list are ignored, which coincides with zero padding. -/
def dot : List ℝ → List ℝ → ℝ
  | x :: xs, y :: ys => x * y + dot xs ys
  | _, _ => 0

/-- Euclidean norm `np.linalg.norm` of a vector. -/
noncomputable def vecNorm (v : List ℝ) : ℝ := Real.sqrt (dot v v)

/-- Arithmetic mean of a list of reals (`np.ndarray.mean` on a 1-d array).
The empty case (numpy: NaN with a RuntimeWarning) is handled explicitly at
every call site; here division by zero yields Lean's `0` convention. -/
noncomputable def listMean (l : List ℝ) : ℝ := l.sum / l.length

/-- Embedding of `cosine_similarities(vector_1, vectors_all)`
(src/eval_lda.py lines 16-36): entry `i` is
`dot(vectors_all[i], vector_1) / (norm(vector_1) * norm(vectors_all[i]))`. -/
noncomputable def cosine_similarities (vector_1 : List ℝ) (vectors_all : List (List ℝ)) :
    List ℝ :=
  vectors_all.map (fun row => dot row vector_1 / (vecNorm vector_1 * vecNorm row))

/-- Column-wise mean of a rectangular matrix given as a list of rows
(`np.ndarray.mean(axis=0)` / `np.mean(_, axis=0)` on a 2-d array).  The column
count is read off the first row, as numpy reads it off the shape. -/
noncomputable def meanAxis0 (rows : List (List ℝ)) : List ℝ :=
  (List.range (rows.headD []).length).map
    (fun j => listMean (rows.map (fun r => r.getD j 0)))

/-- Embedding of the body of `pairwise_similarity(topic, kvs, ignore_oov)`
(src/eval_lda.py lines 39-52) for one keyed-vector source `kv` of the `kvs`
dict (the enclosing per-source loop only assembles the per-source results).

`topic.map(vector).dropna()` keeps, in order, the vectors of the terms the
source knows: `List.filterMap`.  When no term is in vocabulary the row list is
empty, `np.asarray([]).mean(axis=0)` is the 0-d scalar NaN, so
* with `ignore_oov=True` the final `sims.mean()` is NaN: `Except.ok none`;
* with `ignore_oov=False` the code evaluates `len(sims)` on that unsized
  0-d scalar and raises `TypeError`: `Except.error`.
In the padding branch `len(topic) - len(sims)` is never negative because
`dropna` only removes entries, so truncated `Nat` subtraction is faithful. -/
noncomputable def pairwise_similarity (topic : List String)
    (kv : String → Option (List ℝ)) (ignore_oov : Bool) :
    Except String (Option ℝ) :=
  let vectors := topic.filterMap kv
  if vectors.isEmpty then
    if ignore_oov then Except.ok none
    else Except.error "TypeError: len() of unsized object"
  else
    let rows := vectors.map (fun vec => cosine_similarities vec vectors)
    let sims := meanAxis0 rows
    let sims := if ignore_oov then sims
      else sims ++ List.replicate (topic.length - sims.length) 0
    Except.ok (some (listMean sims))

/-- Embedding of the body of `mean_similarity(topic, kvs)`
(src/eval_lda.py lines 55-64) for one keyed-vector source.

When no topic term is in vocabulary, the in-vocabulary matrix is the 1-d empty
array (`pandas.Series.apply` returns an empty Series for an empty Series), so
`np.mean(vectors, axis=0)` is the scalar NaN and
`np.linalg.norm(vectors, axis=1)` inside `cosine_similarities` raises
`AxisError` (axis 1 out of bounds for a 1-d array): `Except.error`.
Otherwise the mean cosine similarity of each row to the centroid is returned
(NaN from zero-norm rows is outside the claims settled here and is absorbed by
the `x / 0 = 0` convention of `ℝ`). -/
noncomputable def mean_similarity (topic : List String)
    (kv : String → Option (List ℝ)) : Except String (Option ℝ) :=
  let vectors := topic.filterMap kv
  if vectors.isEmpty then
    Except.error "AxisError: axis 1 is out of bounds for array of dimension 1"
  else
    let mean_vec := meanAxis0 vectors
    Except.ok (some (listMean (cosine_similarities mean_vec vectors)))

/-- Embedding source used by the end-to-end scenario of the spec:
`a ↦ [1, 0]`, `b ↦ [0, 1]`, `c` missing. -/
def kvAB : String → Option (List ℝ) := fun t =>
  if t = "a" then some [1, 0] else if t = "b" then some [0, 1] else none

/-- Embedding source with two antipodal unit vectors: `a ↦ [1, 0]`,
`b ↦ [-1, 0]`, everything else missing. -/
def kvOpp : String → Option (List ℝ) := fun t =>
  if t = "a" then some [1, 0] else if t = "b" then some [-1, 0] else none

/-- Embedding source that knows no term at all. -/
def kvEmpty : String → Option (List ℝ) := fun _ => none

lemma dot_nil_left (ys : List ℝ) : dot [] ys = 0 := by cases ys <;> rfl

lemma dot_nil_right (xs : List ℝ) : dot xs [] = 0 := by cases xs <;> rfl

lemma dot_eq_sum_range :
    ∀ (xs ys : List ℝ) (D : ℕ), xs.length ≤ D → ys.length ≤ D →
      dot xs ys = ∑ k ∈ Finset.range D, xs.getD k 0 * ys.getD k 0
  | [], ys, D, _, _ => by simp [dot_nil_left]
  | x :: xs, [], D, _, _ => by simp [dot_nil_right]
  | x :: xs, y :: ys, D, hx, hy => by
    cases D with
    | zero => exact absurd hx (by simp)
    | succ d =>
      rw [Finset.sum_range_succ']
      simp only [List.getD_cons_succ, List.getD_cons_zero]
      have ih := dot_eq_sum_range xs ys d (by simpa using hx) (by simpa using hy)
      show x * y + dot xs ys = _
      rw [ih]
      ring

/-- Largest dimension among a list of vectors; every coordinate beyond it is
(implicitly) zero. -/
def maxLen (vs : List (List ℝ)) : ℕ := vs.foldr (fun v m => max v.length m) 0

lemma length_le_maxLen {vs : List (List ℝ)} {v : List ℝ} (hv : v ∈ vs) :
    v.length ≤ maxLen vs := by
  induction vs with
  | nil => cases hv
  | cons a t ih =>
    rcases List.mem_cons.mp hv with rfl | hmem
    · exact le_max_left _ _
    · exact le_trans (ih hmem) (le_max_right _ _)

lemma sum_map_range_swap {α : Type} (l : List α) (D : ℕ) (g : α → ℕ → ℝ) :
    (l.map (fun x => ∑ k ∈ Finset.range D, g x k)).sum
      = ∑ k ∈ Finset.range D, (l.map (fun x => g x k)).sum := by
  induction l with
  | nil => simp
  | cons a t ih => simp [ih, Finset.sum_add_distrib]

lemma list_sum_map_div {α : Type} (l : List α) (f : α → ℝ) (c : ℝ) :
    (l.map (fun x => f x / c)).sum = (l.map f).sum / c := by
  induction l with
  | nil => simp
  | cons a t ih => simp [ih, add_div]

/-- Gram inequality behind the `ignore_oov` comparison: the full double sum of
pairwise cosine similarities equals the squared norm of the sum of the
normalised vectors, hence is nonnegative (for a zero-norm vector the `x / 0 = 0`
convention makes its normalisation the zero vector, which only strengthens the
identity). -/
lemma gram_sum_nonneg (vs : List (List ℝ)) :
    0 ≤ (vs.map (fun vj => (vs.map (fun vi =>
        dot vj vi / (vecNorm vi * vecNorm vj))).sum)).sum := by
  set D := maxLen vs with hD
  set w : List ℝ → ℕ → ℝ := fun v k => v.getD k 0 / vecNorm v with hw
  have step1 : ∀ vj ∈ vs,
      (vs.map (fun vi => dot vj vi / (vecNorm vi * vecNorm vj))).sum
        = ∑ k ∈ Finset.range D, (vs.map (fun vi => w vi k)).sum * w vj k := by
    intro vj hvj
    have hcong : (vs.map (fun vi => dot vj vi / (vecNorm vi * vecNorm vj)))
        = vs.map (fun vi => ∑ k ∈ Finset.range D, w vi k * w vj k) := by
      refine List.map_congr_left (fun vi hvi => ?_)
      rw [dot_eq_sum_range vj vi D (length_le_maxLen hvj) (length_le_maxLen hvi),
        Finset.sum_div]
      refine Finset.sum_congr rfl (fun k _ => ?_)
      rw [mul_comm (vj.getD k 0) (vi.getD k 0), mul_div_mul_comm]
    rw [hcong, sum_map_range_swap]
    refine Finset.sum_congr rfl (fun k _ => ?_)
    rw [List.sum_map_mul_right]
  have hcong2 : (vs.map (fun vj => (vs.map (fun vi =>
        dot vj vi / (vecNorm vi * vecNorm vj))).sum))
      = vs.map (fun vj => ∑ k ∈ Finset.range D,
          (vs.map (fun vi => w vi k)).sum * w vj k) :=
    List.map_congr_left step1
  rw [hcong2, sum_map_range_swap]
  refine Finset.sum_nonneg (fun k _ => ?_)
  rw [List.sum_map_mul_left]
  exact mul_self_nonneg _

/-- The column-wise mean of the row matrix built by `pairwise_similarity` is,
entry by entry, the mean similarity of the corresponding vector to all
vectors. -/
lemma meanAxis0_cosine (vs : List (List ℝ)) (hne : vs ≠ []) :
    meanAxis0 (vs.map (fun vec => cosine_similarities vec vs))
      = vs.map (fun vj => listMean (vs.map (fun vi =>
          dot vj vi / (vecNorm vi * vecNorm vj)))) := by
  obtain ⟨v0, t, rfl⟩ := List.exists_cons_of_ne_nil hne
  set vs := v0 :: t
  have hhead : ((vs.map (fun vec => cosine_similarities vec vs)).headD []).length
      = vs.length := by
    show (cosine_similarities v0 vs).length = vs.length
    simp [cosine_similarities]
  refine List.ext_getElem ?_ (fun j hj1 hj2 => ?_)
  · simp only [meanAxis0, List.length_map, List.length_range, hhead]
  · have hjlt : j < vs.length := by
      simpa only [meanAxis0, List.length_map, List.length_range, hhead] using hj1
    rw [List.getElem_map]
    simp only [meanAxis0]
    rw [List.getElem_map, List.getElem_range]
    congr 1
    rw [List.map_map]
    refine List.map_congr_left (fun vi hvi => ?_)
    show (cosine_similarities vi vs).getD j 0 = _
    have hlen : j < (cosine_similarities vi vs).length := by
      simpa [cosine_similarities] using hjlt
    rw [List.getD_eq_getElem _ _ hlen]
    simp only [cosine_similarities, List.getElem_map]

lemma filterMap_length_lt {kv : String → Option (List ℝ)} :
    ∀ {l : List String} {t : String}, t ∈ l → kv t = none →
      (l.filterMap kv).length < l.length := by
  intro l
  induction l with
  | nil => intro t ht; cases ht
  | cons a l ih =>
    intro t ht hnone
    rw [List.filterMap_cons]
    rcases List.mem_cons.mp ht with rfl | hmem
    · rw [hnone]
      simpa using Nat.lt_succ_of_le (List.length_filterMap_le kv l)
    · cases hkv : kv a with
      | none => simpa using Nat.lt_succ_of_lt (ih hmem hnone)
      | some v => simpa using ih hmem hnone

/-- C1 (amended): for a topic with at least one in-vocabulary term whose
looked-up vectors all have nonzero norm, both OOV policies succeed, the
`ignore_oov=true` score is nonnegative, the `ignore_oov=false` score is at
most the `ignore_oov=true` score, and it is strictly below it whenever at
least one topic term is out of vocabulary AND the `ignore_oov=true` score is
positive.  (The claim's unconditional strictness fails: see the
counterexample with two antipodal vectors, where both scores are `0`.) -/
theorem pairwise_similarity_oov_le (topic : List String)
    (kv : String → Option (List ℝ))
    (h1 : ∃ t ∈ topic, (kv t).isSome)
    (h2 : ∀ t ∈ topic, ∀ v, kv t = some v → vecNorm v ≠ 0) :
    ∃ sF sT : ℝ,
      pairwise_similarity topic kv false = Except.ok (some sF) ∧
      pairwise_similarity topic kv true = Except.ok (some sT) ∧
      0 ≤ sT ∧ sF ≤ sT ∧
      ((∃ t ∈ topic, kv t = none) → 0 < sT → sF < sT) := by
  classical
  set vs := topic.filterMap kv with hvs
  have hne : vs ≠ [] := by
    obtain ⟨t, ht, hs⟩ := h1
    obtain ⟨v, hv⟩ := Option.isSome_iff_exists.mp hs
    exact List.ne_nil_of_mem (List.mem_filterMap.mpr ⟨t, ht, hv⟩)
  have hEmpty : vs.isEmpty = false := by
    cases h : vs with
    | nil => exact absurd h hne
    | cons a l => rfl
  set σ := vs.map (fun vj => listMean (vs.map (fun vi =>
      dot vj vi / (vecNorm vi * vecNorm vj)))) with hσ
  have hMA : meanAxis0 (vs.map fun vec => cosine_similarities vec vs) = σ :=
    meanAxis0_cosine vs hne
  have hN : 0 < vs.length := List.length_pos.mpr hne
  have hNL : vs.length ≤ topic.length := List.length_filterMap_le kv topic
  have hσlen : σ.length = vs.length := List.length_map _ _
  have hσsum : 0 ≤ σ.sum := by
    have : σ.sum = (vs.map (fun vj => (vs.map (fun vi =>
        dot vj vi / (vecNorm vi * vecNorm vj))).sum)).sum / (vs.length : ℝ) := by
      rw [hσ]
      have : (vs.map (fun vj => listMean (vs.map (fun vi =>
          dot vj vi / (vecNorm vi * vecNorm vj)))))
          = vs.map (fun vj => (vs.map (fun vi =>
              dot vj vi / (vecNorm vi * vecNorm vj))).sum / (vs.length : ℝ)) := by
        refine List.map_congr_left (fun vj _ => ?_)
        rw [listMean, List.length_map]
      rw [this, list_sum_map_div]
    rw [this]
    exact div_nonneg (gram_sum_nonneg vs) (by positivity)
  have hTrue : pairwise_similarity topic kv true
      = Except.ok (some (listMean σ)) := by
    simp only [pairwise_similarity, ← hvs, hEmpty, Bool.false_eq_true, if_false,
      if_true, hMA]
  have hFalse : pairwise_similarity topic kv false
      = Except.ok (some (listMean (σ ++ List.replicate (topic.length - σ.length) 0))) := by
    simp only [pairwise_similarity, ← hvs, hEmpty, Bool.false_eq_true, if_false, hMA]
  set sT := listMean σ with hsT
  set sF := listMean (σ ++ List.replicate (topic.length - σ.length) 0) with hsF
  have hsTdiv : sT = σ.sum / (vs.length : ℝ) := by
    rw [hsT, listMean, hσlen]
  have hsFdiv : sF = σ.sum / (topic.length : ℝ) := by
    rw [hsF, listMean, List.sum_append, List.sum_replicate, smul_zero, add_zero,
      List.length_append, List.length_replicate, hσlen,
      Nat.add_sub_cancel' hNL]
  refine ⟨sF, sT, hFalse, hTrue, ?_, ?_, ?_⟩
  · rw [hsTdiv]
    exact div_nonneg hσsum (by positivity)
  · rw [hsTdiv, hsFdiv]
    exact div_le_div_of_nonneg_left hσsum (by exact_mod_cast hN) (by exact_mod_cast hNL)
  · rintro ⟨t, ht, hnone⟩ hpos
    have hlt : vs.length < topic.length := filterMap_length_lt ht hnone
    have hσpos : 0 < σ.sum := by
      have hNpos : (0:ℝ) < (vs.length : ℝ) := by exact_mod_cast hN
      have := mul_pos (hsTdiv ▸ hpos) hNpos
      rwa [div_mul_cancel₀ _ (ne_of_gt hNpos)] at this
    rw [hsTdiv, hsFdiv]
    exact div_lt_div_of_pos_left hσpos (by exact_mod_cast hN) (by exact_mod_cast hlt)

/-- Witness for C1's amended theorem at the concrete scenario input
(`a ↦ [1,0]`, `b ↦ [0,1]`, `c` out of vocabulary). -/
theorem pairwise_similarity_oov_le_witness :
    (∃ t ∈ (["a", "b", "c"] : List String), (kvAB t).isSome) ∧
    (∀ t ∈ (["a", "b", "c"] : List String), ∀ v, kvAB t = some v → vecNorm v ≠ 0) ∧
    (∃ sF sT : ℝ,
      pairwise_similarity ["a", "b", "c"] kvAB false = Except.ok (some sF) ∧
      pairwise_similarity ["a", "b", "c"] kvAB true = Except.ok (some sT) ∧
      0 ≤ sT ∧ sF ≤ sT ∧
      ((∃ t ∈ (["a", "b", "c"] : List String), kvAB t = none) →
        0 < sT → sF < sT)) := by
  have hn1 : vecNorm [(1:ℝ), 0] = 1 := by
    show Real.sqrt (1 * 1 + (0 * 0 + 0)) = 1
    norm_num
  have hn2 : vecNorm [(0:ℝ), 1] = 1 := by
    show Real.sqrt (0 * 0 + (1 * 1 + 0)) = 1
    norm_num
  have h1 : ∃ t ∈ (["a", "b", "c"] : List String), (kvAB t).isSome :=
    ⟨"a", by simp [kvAB]⟩
  have h2 : ∀ t ∈ (["a", "b", "c"] : List String), ∀ v,
      kvAB t = some v → vecNorm v ≠ 0 := by
    intro t ht v hv
    fin_cases ht <;> simp [kvAB] at hv <;> rw [← hv] <;> simp [hn1, hn2]
  exact ⟨h1, h2, pairwise_similarity_oov_le _ _ h1 h2⟩

/-- Counterexample to C1 as stated: with `a ↦ [1,0]`, `b ↦ [-1,0]` and `c`
out of vocabulary, at least one term is in vocabulary, every looked-up vector
has norm `1`, one term is OOV, yet the padded (`ignore_oov=false`) score is
NOT strictly below the `ignore_oov=true` score: both equal `0`. -/
theorem pairwise_similarity_strict_oov_cex :
    (∃ t ∈ (["a", "b", "c"] : List String), (kvOpp t).isSome) ∧
    (∀ t ∈ (["a", "b", "c"] : List String), ∀ v, kvOpp t = some v → vecNorm v ≠ 0) ∧
    ("c" ∈ (["a", "b", "c"] : List String) ∧ kvOpp "c" = none) ∧
    pairwise_similarity ["a", "b", "c"] kvOpp false = Except.ok (some 0) ∧
    pairwise_similarity ["a", "b", "c"] kvOpp true = Except.ok (some 0) := by
  have hv : (["a", "b", "c"] : List String).filterMap kvOpp
      = [[(1:ℝ), 0], [-1, 0]] := rfl
  have hn1 : vecNorm [(1:ℝ), 0] = 1 := by
    show Real.sqrt (1 * 1 + (0 * 0 + 0)) = 1
    norm_num
  have hn2 : vecNorm [(-1:ℝ), 0] = 1 := by
    show Real.sqrt (-1 * -1 + (0 * 0 + 0)) = 1
    norm_num
  refine ⟨⟨"a", by simp [kvOpp]⟩, ?_, ⟨by simp, rfl⟩, ?_, ?_⟩
  · intro t ht v hvv
    fin_cases ht <;> simp [kvOpp] at hvv <;> rw [← hvv] <;> simp [hn1, hn2]
  · simp only [pairwise_similarity, hv]
    norm_num [cosine_similarities, meanAxis0, listMean, dot, hn1, hn2,
      List.range_succ]
  · simp only [pairwise_similarity, hv]
    norm_num [cosine_similarities, meanAxis0, listMean, dot, hn1, hn2,
      List.range_succ]

/-- C2 (code bug): on a topic with zero in-vocabulary terms the
`ignore_oov=true` pairwise score is NaN without an exception, but
`pairwise_similarity` with `ignore_oov=false` raises `TypeError`
(`len()` of the 0-d scalar `np.asarray([]).mean(axis=0)`), and
`mean_similarity` raises `AxisError` (`np.linalg.norm(_, axis=1)` on the 1-d
empty in-vocabulary matrix) — contradicting the contract that the scorer
reports NaN and never throws for this case. -/
theorem similarity_zero_invocab_raises :
    pairwise_similarity ["a", "b", "c"] kvEmpty true = Except.ok none ∧
    pairwise_similarity ["a", "b", "c"] kvEmpty false
      = Except.error "TypeError: len() of unsized object" ∧
    mean_similarity ["a", "b", "c"] kvEmpty
      = Except.error "AxisError: axis 1 is out of bounds for array of dimension 1" :=
  ⟨rfl, rfl, rfl⟩

/-- C3: end-to-end scenario with `a ↦ [1,0]`, `b ↦ [0,1]`, `c` missing:
`ignore_oov=true` gives `0.5` (self-similarity included, per-term means `0.5`
and `0.5`), `ignore_oov=false` pads one zero before the final averaging and
gives `1/3`, which is strictly below `0.5`. -/
theorem pairwise_similarity_scenario_abc :
    pairwise_similarity ["a", "b", "c"] kvAB true = Except.ok (some (1/2 : ℝ)) ∧
    pairwise_similarity ["a", "b", "c"] kvAB false = Except.ok (some (1/3 : ℝ)) ∧
    (1/3 : ℝ) < 1/2 := by
  have hv : (["a", "b", "c"] : List String).filterMap kvAB
      = [[(1:ℝ), 0], [0, 1]] := rfl
  have hn1 : vecNorm [(1:ℝ), 0] = 1 := by
    show Real.sqrt (1 * 1 + (0 * 0 + 0)) = 1
    norm_num
  have hn2 : vecNorm [(0:ℝ), 1] = 1 := by
    show Real.sqrt (0 * 0 + (1 * 1 + 0)) = 1
    norm_num
  refine ⟨?_, ?_, by norm_num⟩
  · simp only [pairwise_similarity, hv]
    norm_num [cosine_similarities, meanAxis0, listMean, dot, hn1, hn2,
      List.range_succ]
  · simp only [pairwise_similarity, hv]
    norm_num [cosine_similarities, meanAxis0, listMean, dot, hn1, hn2,
      List.range_succ]

/-! The orchestrator `eval_coherence` (src/eval_lda.py lines 67-128).

The gensim `Dictionary` is embedded through its `token2id` table, an
association list in insertion order: `Dictionary.add_documents` registers each
unseen token at the end with the next id and never touches existing entries.
The external black-box `CoherenceModel` is embedded as the record of the
arguments the orchestrator constructs it with (one `ScorerCall` per metric);
its numeric output is outside this development's scope.  Python truthiness of
the optional inputs (`None` and the empty collection are both falsy) is
`truthy`; `metrics is not None` tests are `Option.isSome`. -/

/-- Code-point comparison of strings as Python compares them, written on
`List Char` so that it evaluates by kernel reduction. -/
def charListLt : List Char → List Char → Bool
  | [], [] => false
  | [], _ :: _ => true
  | _ :: _, [] => false
  | a :: as, b :: bs =>
    if a.val < b.val then true else if b.val < a.val then false else charListLt as bs

/-- Python `s <= t` on strings (lexicographic by code point). -/
def strLe (s t : String) : Bool := !(charListLt t.data s.data)

/-- Membership test `t in dictionary.token2id`. -/
def memDict (t : String) (d : List (String × ℕ)) : Bool :=
  d.any (fun p => p.1 == t)

/-- Registration of one token by gensim's `Dictionary.add_documents`: an
unseen token is appended with the next free id, a known token changes
nothing. -/
def addToken (d : List (String × ℕ)) (t : String) : List (String × ℕ) :=
  if memDict t d then d else d ++ [(t, d.length)]

/-- Embedding of `dictionary.add_documents(docs, prune_at=None)`: every token
of every document is registered in order; no existing id is renumbered or
removed. -/
def add_documents (d : List (String × ℕ)) (docs : List (List String)) :
    List (String × ℕ) :=
  docs.foldl (fun acc doc => doc.foldl addToken acc) d

/-- Embedding of the OOV detection of `eval_coherence`
(src/eval_lda.py lines 88-96): the distinct topic terms absent from
`dictionary.token2id`, deduplicated via the Python `set`, sorted (Python
`sorted`, here by sorting the terms, which orders the singleton documents the
same way), each wrapped as a single-term pseudo-document. -/
def detectOov (topics : List (List String)) (d : List (String × ℕ)) :
    List (List String) :=
  (((topics.flatten.filter (fun t => !(memDict t d))).dedup).insertionSort
    (fun a b => strLe a b = true)).map (fun t => [t])

/-- Embedding of the vocabulary-reconciliation step of `eval_coherence`
(src/eval_lda.py lines 88-99): detect the OOV pseudo-documents and, when there
are any, register them in the dictionary (`_ = dictionary[0]` only rebuilds
gensim's reverse index and has no semantic effect).  Returns the OOV report
and the resulting dictionary. -/
def reconcile (topics : List (List String)) (d : List (String × ℕ)) :
    List (List String) × List (String × ℕ) :=
  let oov := detectOov topics d
  (oov, if oov.isEmpty then d else add_documents d oov)

/-- Python truthiness of an optional collection: `None` and the empty
collection are falsy (gensim's `KeyedVectors` defines `len`, so an empty
vector store is falsy too). -/
def truthy {α : Type} : Option (List α) → Bool
  | none => false
  | some l => !l.isEmpty

/-- Record of one construction of the black-box `CoherenceModel`
(src/eval_lda.py lines 108-118): which metric, the constant `topn`, and which
texts/corpus/keyed-vector/window arguments were passed. -/
structure ScorerCall (γ κ : Type) where
  metric : String
  topn : ℕ
  textsArg : Option (List (List String))
  corpusArg : Option (List γ)
  kvArg : Option (List κ)
  windowArg : Option ℕ

/-- Observable outcome of one successful `eval_coherence` run: the dictionary
after reconciliation (the only mutation the function performs), the OOV
report, the scorer constructions, and the column keys `metric + suffix` of the
returned table. -/
structure EvalOutcome (γ κ : Type) where
  reconciled : List (String × ℕ)
  oov : List (List String)
  calls : List (ScorerCall γ κ)
  columns : List String

/-- Constructor call of the black-box scorer for one metric: every field other
than the metric name is the same across the loop, and `topn` is the literal
`10` of the source. -/
def mkCall {γ κ : Type} (txt : Option (List (List String)))
    (corpus : Option (List γ)) (keyed_vectors : Option (List κ))
    (window_size : Option ℕ) (m : String) : ScorerCall γ κ where
  metric := m
  topn := 10
  textsArg := txt
  corpusArg := corpus
  kvArg := keyed_vectors
  windowArg := window_size

/-- Embedding of the default-metric inference of `eval_coherence`
(src/eval_lda.py lines 74-86), mirroring the three `is not None` branches that
start from `metrics = None`. -/
def inferMetrics {γ κ : Type} (corpus : Option (List γ))
    (texts : Option (List (List String))) (keyed_vectors : Option (List κ)) :
    Option (List String) :=
  let m0 : Option (List String) := none
  let m1 := if corpus.isSome then some ["u_mass"] else m0
  let m2 := if texts.isSome then
      match m1 with
      | none => some ["c_v", "c_npmi", "c_uci"]
      | some ms => some (ms ++ ["c_v", "c_npmi", "c_uci"])
    else m1
  let m3 := if keyed_vectors.isSome then
      match m2 with
      | none => some ["c_w2v"]
      | some ms => some (ms ++ ["c_w2v"])
    else m2
  m3

/-- Embedding of `eval_coherence` (src/eval_lda.py lines 67-128).  `none` is
the early `return` of the guard `if not (corpus or texts or keyed_vectors)`
(Python truthiness).  Otherwise the metric list is the explicit one or the
inferred default, the dictionary is reconciled, and per metric the scorer is
constructed with `txt = texts + oov if texts else None` (evaluated inside the
loop in the source, but constant across it).  The `getD []` for the inferred
metrics is unreachable past the guard, where at least one input is truthy and
hence `isSome`. -/
def eval_coherence {γ κ : Type} (topics : List (List String))
    (dictionary : List (String × ℕ)) (corpus : Option (List γ))
    (texts : Option (List (List String))) (keyed_vectors : Option (List κ))
    (metrics : Option (List String)) (window_size : Option ℕ) (suffix : String) :
    Option (EvalOutcome γ κ) :=
  if !(truthy corpus || truthy texts || truthy keyed_vectors) then none
  else
    let ms : List String :=
      match metrics with
      | some given => given
      | none => (inferMetrics corpus texts keyed_vectors).getD []
    let oov := (reconcile topics dictionary).1
    let reconciled := (reconcile topics dictionary).2
    let txt : Option (List (List String)) :=
      if truthy texts then some (texts.getD [] ++ oov) else none
    some ⟨reconciled, oov, ms.map (mkCall txt corpus keyed_vectors window_size),
      ms.map (fun m => m ++ suffix)⟩

lemma map_metric_mkCall {γ κ : Type} (l : List String)
    (txt : Option (List (List String))) (corpus : Option (List γ))
    (keyed_vectors : Option (List κ)) (window_size : Option ℕ) :
    (l.map (mkCall txt corpus keyed_vectors window_size)).map ScorerCall.metric
      = l := by
  rw [List.map_map]
  exact List.map_id l

lemma memDict_iff (t : String) (d : List (String × ℕ)) :
    memDict t d = true ↔ t ∈ d.map Prod.fst := by
  simp only [memDict, List.any_eq_true, List.mem_map, beq_iff_eq]

lemma memDict_append (t : String) (d e : List (String × ℕ))
    (h : memDict t d = true) : memDict t (d ++ e) = true := by
  simp only [memDict, List.any_append, Bool.or_eq_true]
  exact Or.inl h

lemma addToken_extend (d : List (String × ℕ)) (t : String) :
    ∃ e, addToken d t = d ++ e := by
  unfold addToken
  split
  · exact ⟨[], (List.append_nil d).symm⟩
  · exact ⟨[(t, d.length)], rfl⟩

lemma foldl_addToken_extend (doc : List String) :
    ∀ d, ∃ e, doc.foldl addToken d = d ++ e := by
  induction doc with
  | nil => intro d; exact ⟨[], (List.append_nil d).symm⟩
  | cons a doc ih =>
    intro d
    obtain ⟨e1, h1⟩ := addToken_extend d a
    obtain ⟨e2, h2⟩ := ih (addToken d a)
    refine ⟨e1 ++ e2, ?_⟩
    rw [List.foldl_cons, h2, h1, List.append_assoc]

lemma add_documents_extend (docs : List (List String)) :
    ∀ d, ∃ e, add_documents d docs = d ++ e := by
  induction docs with
  | nil => intro d; exact ⟨[], (List.append_nil d).symm⟩
  | cons doc docs ih =>
    intro d
    obtain ⟨e1, h1⟩ := foldl_addToken_extend doc d
    obtain ⟨e2, h2⟩ := ih (doc.foldl addToken d)
    refine ⟨e1 ++ e2, ?_⟩
    show add_documents (doc.foldl addToken d) docs = d ++ (e1 ++ e2)
    rw [h2, h1, List.append_assoc]

lemma memDict_addToken_self (d : List (String × ℕ)) (t : String) :
    memDict t (addToken d t) = true := by
  unfold addToken
  split
  · next h => exact h
  · exact by simp [memDict, List.any_append]

lemma memDict_foldl_self (doc : List String) :
    ∀ d t, t ∈ doc → memDict t (doc.foldl addToken d) = true := by
  induction doc with
  | nil => intro d t ht; cases ht
  | cons a doc ih =>
    intro d t ht
    rw [List.foldl_cons]
    rcases List.mem_cons.mp ht with rfl | hmem
    · obtain ⟨e, he⟩ := foldl_addToken_extend doc (addToken d t)
      rw [he]
      exact memDict_append _ _ _ (memDict_addToken_self d t)
    · exact ih _ _ hmem

lemma memDict_add_documents_self (docs : List (List String)) :
    ∀ d doc t, doc ∈ docs → t ∈ doc → memDict t (add_documents d docs) = true := by
  induction docs with
  | nil => intro d doc t h; cases h
  | cons dc docs ih =>
    intro d doc t hdoc ht
    rcases List.mem_cons.mp hdoc with rfl | hmem
    · show memDict t (add_documents (doc.foldl addToken d) docs) = true
      obtain ⟨e, he⟩ := add_documents_extend docs (doc.foldl addToken d)
      rw [he]
      exact memDict_append _ _ _ (memDict_foldl_self doc d t ht)
    · exact ih _ _ _ hmem ht

lemma keys_nodup_addToken (d : List (String × ℕ)) (t : String)
    (hd : (d.map Prod.fst).Nodup) : ((addToken d t).map Prod.fst).Nodup := by
  unfold addToken
  split
  · exact hd
  · next h =>
    rw [List.map_append, List.nodup_append]
    refine ⟨hd, List.nodup_singleton _, ?_⟩
    intro x hx hxt
    simp only [List.map_cons, List.map_nil, List.mem_singleton] at hxt
    subst hxt
    exact h ((memDict_iff x d).mpr hx)

lemma keys_nodup_foldl (doc : List String) :
    ∀ d, (d.map Prod.fst).Nodup → ((doc.foldl addToken d).map Prod.fst).Nodup := by
  induction doc with
  | nil => intro d hd; exact hd
  | cons a doc ih =>
    intro d hd
    rw [List.foldl_cons]
    exact ih _ (keys_nodup_addToken d a hd)

lemma keys_nodup_add_documents (docs : List (List String)) :
    ∀ d, (d.map Prod.fst).Nodup →
      ((add_documents d docs).map Prod.fst).Nodup := by
  induction docs with
  | nil => intro d hd; exact hd
  | cons doc docs ih =>
    intro d hd
    show ((add_documents (doc.foldl addToken d) docs).map Prod.fst).Nodup
    exact ih _ (keys_nodup_foldl doc d hd)

lemma mem_detectOov {t : String} {topics : List (List String)}
    {d : List (String × ℕ)} (h1 : t ∈ topics.flatten)
    (h2 : memDict t d = false) : [t] ∈ detectOov topics d := by
  unfold detectOov
  refine List.mem_map.mpr ⟨t, ?_, rfl⟩
  refine ((List.perm_insertionSort _ _).mem_iff).mpr ?_
  exact List.mem_dedup.mpr (List.mem_filter.mpr ⟨h1, by simp [h2]⟩)

lemma detectOov_eq_nil {topics : List (List String)} {d : List (String × ℕ)}
    (h : ∀ t ∈ topics.flatten, memDict t d = true) : detectOov topics d = [] := by
  unfold detectOov
  have hf : topics.flatten.filter (fun t => !(memDict t d)) = [] := by
    rw [List.filter_eq_nil_iff]
    intro a ha
    simp [h a ha]
  rw [hf]
  rfl

/-- C4: after the vocabulary-reconciliation step of `eval_coherence`, every
topic term is in the dictionary's vocabulary; the original dictionary is an
unchanged initial segment (no id renumbered or removed); no term occurs twice
(assuming the input dictionary is a well-formed map with distinct terms); and
a second run detects an empty OOV set. -/
theorem reconcile_vocabulary_ok (topics : List (List String))
    (d : List (String × ℕ)) (hd : (d.map Prod.fst).Nodup) :
    (∀ t ∈ topics.flatten, memDict t (reconcile topics d).2 = true) ∧
    (∃ ext, (reconcile topics d).2 = d ++ ext) ∧
    ((reconcile topics d).2.map Prod.fst).Nodup ∧
    detectOov topics (reconcile topics d).2 = [] := by
  have hmem : ∀ t ∈ topics.flatten, memDict t (reconcile topics d).2 = true := by
    intro t ht
    show memDict t (if (detectOov topics d).isEmpty then d
      else add_documents d (detectOov topics d)) = true
    cases hmd : memDict t d with
    | false =>
      have hoov : [t] ∈ detectOov topics d := mem_detectOov ht hmd
      have hne : (detectOov topics d).isEmpty = false := by
        cases hdo : detectOov topics d with
        | nil => rw [hdo] at hoov; cases hoov
        | cons a l => rfl
      rw [hne]
      simp only [Bool.false_eq_true, if_false]
      exact memDict_add_documents_self _ d [t] t hoov (by simp)
    | true =>
      split
      · exact hmd
      · obtain ⟨e, he⟩ := add_documents_extend (detectOov topics d) d
        rw [he]
        exact memDict_append _ _ _ hmd
  refine ⟨hmem, ?_, ?_, detectOov_eq_nil hmem⟩
  · show ∃ ext, (if (detectOov topics d).isEmpty then d
      else add_documents d (detectOov topics d)) = d ++ ext
    split
    · exact ⟨[], (List.append_nil d).symm⟩
    · exact add_documents_extend _ d
  · show ((if (detectOov topics d).isEmpty then d
      else add_documents d (detectOov topics d)).map Prod.fst).Nodup
    split
    · exact hd
    · exact keys_nodup_add_documents _ d hd

/-- Witness for C4 at a concrete topic collection with two OOV terms and one
known term. -/
theorem reconcile_vocabulary_ok_witness :
    ((([("alpha", 0)] : List (String × ℕ)).map Prod.fst).Nodup) ∧
    ((∀ t ∈ ([["b", "alpha"], ["alpha", "zzz"]] : List (List String)).flatten,
        memDict t (reconcile [["b", "alpha"], ["alpha", "zzz"]] [("alpha", 0)]).2
          = true) ∧
      (∃ ext, (reconcile [["b", "alpha"], ["alpha", "zzz"]] [("alpha", 0)]).2
        = [("alpha", 0)] ++ ext) ∧
      ((reconcile [["b", "alpha"], ["alpha", "zzz"]]
        [("alpha", 0)]).2.map Prod.fst).Nodup ∧
      detectOov [["b", "alpha"], ["alpha", "zzz"]]
        (reconcile [["b", "alpha"], ["alpha", "zzz"]] [("alpha", 0)]).2 = []) :=
  ⟨by decide, reconcile_vocabulary_ok [["b", "alpha"], ["alpha", "zzz"]]
    [("alpha", 0)] (by decide)⟩

/-- C6: when none of corpus, texts, or keyed vectors is supplied,
`eval_coherence` reports the configuration error and returns without
computing anything: no outcome is produced, so no score table exists and the
dictionary (whose only mutation would be recorded in the outcome) is
untouched. -/
theorem eval_coherence_no_inputs {γ κ : Type} (topics : List (List String))
    (dictionary : List (String × ℕ)) (metrics : Option (List String))
    (window_size : Option ℕ) (suffix : String) :
    eval_coherence (γ := γ) (κ := κ) topics dictionary none none none
      metrics window_size suffix = none := rfl

/-- C10: an empty-but-supplied scoring input is treated exactly like an
absent one — if corpus, texts and keyed vectors are each `None` or empty, the
guard's Python truthiness takes the configuration-error branch and no score
table is produced. -/
theorem eval_coherence_empty_inputs {γ κ : Type} (topics : List (List String))
    (dictionary : List (String × ℕ)) (corpus : Option (List γ))
    (texts : Option (List (List String))) (keyed_vectors : Option (List κ))
    (metrics : Option (List String)) (window_size : Option ℕ) (suffix : String)
    (hc : corpus = none ∨ corpus = some [])
    (ht : texts = none ∨ texts = some [])
    (hk : keyed_vectors = none ∨ keyed_vectors = some []) :
    eval_coherence topics dictionary corpus texts keyed_vectors metrics
      window_size suffix = none := by
  rcases hc with rfl | rfl <;> rcases ht with rfl | rfl <;>
    rcases hk with rfl | rfl <;> rfl

/-- Witness for C10 with all three inputs supplied but empty. -/
theorem eval_coherence_empty_inputs_witness :
    ((some [] : Option (List Unit)) = none
      ∨ (some [] : Option (List Unit)) = some []) ∧
    eval_coherence (γ := Unit) (κ := Unit) [["a"]] [] (some []) (some [])
      (some []) none none "" = none :=
  ⟨Or.inr rfl,
    eval_coherence_empty_inputs [["a"]] [] (some []) (some []) (some [])
      none none "" (Or.inr rfl) (Or.inr rfl) (Or.inr rfl)⟩

lemma inferMetrics_eq {γ κ : Type} (corpus : Option (List γ))
    (texts : Option (List (List String))) (keyed_vectors : Option (List κ)) :
    (inferMetrics corpus texts keyed_vectors).getD []
      = (if corpus.isSome then ["u_mass"] else [])
        ++ (if texts.isSome then ["c_v", "c_npmi", "c_uci"] else [])
        ++ (if keyed_vectors.isSome then ["c_w2v"] else []) := by
  cases corpus <;> cases texts <;> cases keyed_vectors <;> rfl

/-- C5: with `metrics` unspecified, the metric set is inferred additively from
which inputs are present: a supplied (non-`None`) corpus contributes
`u_mass`, supplied texts add `c_v`, `c_npmi`, `c_uci`, and a supplied
embedding source adds `c_w2v`; every applicable family is included whenever
its input is present and none excludes another. -/
theorem eval_coherence_default_metrics {γ κ : Type} (topics : List (List String))
    (dictionary : List (String × ℕ)) (corpus : Option (List γ))
    (texts : Option (List (List String))) (keyed_vectors : Option (List κ))
    (window_size : Option ℕ) (suffix : String) (out : EvalOutcome γ κ)
    (h : eval_coherence topics dictionary corpus texts keyed_vectors none
      window_size suffix = some out) :
    out.calls.map ScorerCall.metric
      = (if corpus.isSome then ["u_mass"] else [])
        ++ (if texts.isSome then ["c_v", "c_npmi", "c_uci"] else [])
        ++ (if keyed_vectors.isSome then ["c_w2v"] else []) := by
  rw [eval_coherence.eq_def] at h
  split at h
  · exact absurd h (by simp)
  · rw [Option.some_inj] at h
    rw [← h, ← inferMetrics_eq corpus texts keyed_vectors]
    exact map_metric_mkCall _ _ _ _ _

/-- Witness for C5 with all three inputs supplied: the five metric families
are all inferred. -/
theorem eval_coherence_default_metrics_witness :
    ((⟨[("alpha", 0)], [],
        List.map (mkCall (some [["t"]]) (some [()]) (some [()]) none)
          ["u_mass", "c_v", "c_npmi", "c_uci", "c_w2v"],
        List.map (fun m => m ++ "")
          ["u_mass", "c_v", "c_npmi", "c_uci", "c_w2v"]⟩ :
      EvalOutcome Unit Unit).calls.map ScorerCall.metric)
      = (if (some [()] : Option (List Unit)).isSome then ["u_mass"] else [])
        ++ (if (some [["t"]] : Option (List (List String))).isSome then
              ["c_v", "c_npmi", "c_uci"] else [])
        ++ (if (some [()] : Option (List Unit)).isSome then ["c_w2v"] else []) :=
  eval_coherence_default_metrics [["alpha"]] [("alpha", 0)] (some [()])
    (some [["t"]]) (some [()]) none "" _ rfl

/-- C9: every construction of the black-box coherence scorer by
`eval_coherence` uses the constant `topn = 10`; the function does not even
receive the user-configured `topn` (which `parse_args` defaults to 10 but
allows to differ), so all coherence metrics are evaluated over the top 10
terms regardless of it. -/
theorem eval_coherence_topn_always_ten {γ κ : Type} (topics : List (List String))
    (dictionary : List (String × ℕ)) (corpus : Option (List γ))
    (texts : Option (List (List String))) (keyed_vectors : Option (List κ))
    (metrics : Option (List String)) (window_size : Option ℕ) (suffix : String)
    (out : EvalOutcome γ κ)
    (h : eval_coherence topics dictionary corpus texts keyed_vectors metrics
      window_size suffix = some out) :
    out.calls.map ScorerCall.topn = out.calls.map (fun _ => 10) := by
  rw [eval_coherence.eq_def] at h
  split at h
  · exact absurd h (by simp)
  · rw [Option.some_inj] at h
    rw [← h]
    show (List.map _ (List.map _ _)) = (List.map _ (List.map _ _))
    rw [List.map_map, List.map_map]
    rfl

/-- Witness for C9 at a concrete run with an explicit metric list. -/
theorem eval_coherence_topn_always_ten_witness :
    ((⟨[("alpha", 0)], [], List.map (mkCall none (some [()]) none none)
        ["u_mass"], List.map (fun m => m ++ "") ["u_mass"]⟩ :
      EvalOutcome Unit Unit).calls.map ScorerCall.topn)
      = (⟨[("alpha", 0)], [], List.map (mkCall none (some [()]) none none)
        ["u_mass"], List.map (fun m => m ++ "") ["u_mass"]⟩ :
      EvalOutcome Unit Unit).calls.map (fun _ => 10) :=
  eval_coherence_topn_always_ten [["alpha"]] [("alpha", 0)] (some [()]) none
    none (some ["u_mass"]) none "" _ rfl

/-- C7 (amended): in every scorer construction of an `eval_coherence` run,
the texts argument is the supplied text collection with the OOV single-term
pseudo-documents appended — when the supplied text collection is truthy
(present and nonempty); when texts are absent OR EMPTY, nothing is passed as
texts (Python truthiness of `texts` in `txt = texts + oov if texts else
None`).  The claim's version, conditioned only on texts being supplied, fails
for an empty-but-supplied text collection; see the counterexample. -/
theorem eval_coherence_texts_passthrough {γ κ : Type} (topics : List (List String))
    (dictionary : List (String × ℕ)) (corpus : Option (List γ))
    (texts : Option (List (List String))) (keyed_vectors : Option (List κ))
    (metrics : Option (List String)) (window_size : Option ℕ) (suffix : String)
    (out : EvalOutcome γ κ)
    (h : eval_coherence topics dictionary corpus texts keyed_vectors metrics
      window_size suffix = some out) :
    out.calls.map ScorerCall.textsArg
      = out.calls.map (fun _ =>
          if truthy texts then some (texts.getD [] ++ out.oov) else none) := by
  rw [eval_coherence.eq_def] at h
  split at h
  · exact absurd h (by simp)
  · rw [Option.some_inj] at h
    rw [← h]
    show (List.map _ (List.map _ _)) = (List.map _ (List.map _ _))
    rw [List.map_map, List.map_map]
    rfl

/-- Witness for C7's amended theorem: nonempty texts plus one OOV term; the
`c_v` scorer receives the texts followed by the pseudo-document. -/
theorem eval_coherence_texts_passthrough_witness :
    ((⟨[("alpha", 0), ("zzz", 1)], [["zzz"]],
        List.map (mkCall (some [["t"], ["zzz"]]) none none none) ["c_v"],
        List.map (fun m => m ++ "") ["c_v"]⟩ :
      EvalOutcome Unit Unit).calls.map ScorerCall.textsArg)
      = (⟨[("alpha", 0), ("zzz", 1)], [["zzz"]],
          List.map (mkCall (some [["t"], ["zzz"]]) none none none) ["c_v"],
          List.map (fun m => m ++ "") ["c_v"]⟩ :
        EvalOutcome Unit Unit).calls.map (fun _ =>
          if truthy (some [["t"]]) then
            some ((some [["t"]] : Option (List (List String))).getD []
              ++ (⟨[("alpha", 0), ("zzz", 1)], [["zzz"]],
                  List.map (mkCall (some [["t"], ["zzz"]]) none none none)
                    ["c_v"],
                  List.map (fun m => m ++ "") ["c_v"]⟩ :
                EvalOutcome Unit Unit).oov)
          else none) :=
  eval_coherence_texts_passthrough [["zzz"]] [("alpha", 0)] none (some [["t"]])
    none (some ["c_v"]) none "" _ rfl

/-- Counterexample to C7 as stated: with texts supplied but EMPTY, a corpus to
pass the guard, and one OOV term, the texts-using metric `c_v` is run (it is
among the inferred metrics) and OOV pseudo-documents were detected, yet the
scorer receives no texts at all (`None`), not the pseudo-documents: `texts +
oov` is skipped because the empty list is falsy. -/
theorem eval_coherence_empty_texts_cex :
    eval_coherence (γ := Unit) (κ := Unit) [["zzz"]] [("alpha", 0)] (some [()])
        (some []) none none none ""
      = some ⟨[("alpha", 0), ("zzz", 1)], [["zzz"]],
          List.map (mkCall none (some [()]) none none)
            ["u_mass", "c_v", "c_npmi", "c_uci"],
          List.map (fun m => m ++ "") ["u_mass", "c_v", "c_npmi", "c_uci"]⟩ ∧
    (mkCall (γ := Unit) (κ := Unit) none (some [()]) none none "c_v").textsArg
      = none ∧
    (none : Option (List (List String)))
      ≠ some (([] : List (List String)) ++ [["zzz"]]) :=
  ⟨rfl, rfl, by simp⟩

/-! Output-path collision handling of `main` (src/eval_lda.py lines 256-262).

Paths and the timestamp are modelled as the character sequences Python
manipulates.  `file.rstrip('.csv')` strips the trailing CHARACTERS drawn from
the set `.` `c` `s` `v` — not the suffix `.csv`. -/

/-- Character set of Python's `rstrip('.csv')` argument. -/
def stripDotCsv : List Char := ['.', 'c', 's', 'v']

/-- Python `s.rstrip(strip)`: remove the longest trailing run of characters
belonging to the set `strip`. -/
def pyRstrip (s : List Char) (strip : List Char) : List Char :=
  (s.reverse.dropWhile (fun c => strip.contains c)).reverse

/-- Embedding of the collision branch of `main` (src/eval_lda.py line 260):
`file = file.rstrip('.csv') + '_' + str(time()).split('.')[0] + '.csv'`,
with `ts` the timestamp digits. -/
def collisionPath (file ts : List Char) : List Char :=
  pyRstrip file stripDotCsv ++ '_' :: (ts ++ ['.', 'c', 's', 'v'])

/-- Modelled from the spec: the claimed disambiguated path, obtained by
appending the timestamp disambiguator to the existing path while keeping the
`.csv` extension — i.e. only the 4-character `.csv` suffix is removed before
appending `_<ts>.csv`.  Defined for comparison with `collisionPath`, the path
the code actually builds. -/
def specCollisionPath (file ts : List Char) : List Char :=
  file.take (file.length - 4) ++ '_' :: (ts ++ ['.', 'c', 's', 'v'])

/-- C8 (amended): on a collision the code writes to the path obtained by
stripping every trailing character of the set `.` `c` `s` `v` (Python
`rstrip('.csv')` semantics, which may remove more than the extension) and
appending an underscore, the timestamp and `.csv`.  The new path always
differs from the existing one (so nothing is overwritten and two runs yield
two distinct files, the second containing the timestamp) and ends in
`.csv`. -/
theorem collisionPath_distinct (file ts : List Char) :
    collisionPath file ts ≠ file ∧
    ∃ pre, collisionPath file ts = pre ++ '_' :: (ts ++ ['.', 'c', 's', 'v']) := by
  constructor
  · intro heq
    have hsplit : file = pyRstrip file stripDotCsv
        ++ (file.reverse.takeWhile (fun c => stripDotCsv.contains c)).reverse := by
      conv_lhs => rw [← List.reverse_reverse file,
        ← List.takeWhile_append_dropWhile (fun c => stripDotCsv.contains c)
          file.reverse]
      rw [List.reverse_append]
      rfl
    have hc : '_' :: (ts ++ ['.', 'c', 's', 'v'])
        = (file.reverse.takeWhile (fun c => stripDotCsv.contains c)).reverse := by
      have := heq.trans hsplit
      rw [collisionPath] at this
      exact List.append_cancel_left this
    rcases hs : (file.reverse.takeWhile (fun c => stripDotCsv.contains c)).reverse
      with _ | ⟨c, cs⟩
    · rw [hs] at hc
      cases hc
    · rw [hs] at hc
      have h1 : '_' = c := by injection hc
      have hcmem : c ∈ file.reverse.takeWhile (fun c => stripDotCsv.contains c) := by
        rw [← List.mem_reverse, hs]
        exact List.mem_cons_self c cs
      have hpc := List.mem_takeWhile_imp hcmem
      rw [← h1] at hpc
      exact absurd hpc (by decide)
  · exact ⟨pyRstrip file stripDotCsv, rfl⟩

/-- Counterexample to C8 as stated: on the pipeline's actual file name shape
the disambiguated path is NOT the existing path with a timestamp appended
before the extension — `rstrip('.csv')` also eats the final `s` of `scores`,
so the code produces `..._topic-score_<ts>.csv` where the claim's reading
requires `..._topic-scores_<ts>.csv`. -/
theorem collisionPath_rstrip_cex :
    collisionPath "x_noun_bow_topic-scores.csv".data "1577836800".data
      = "x_noun_bow_topic-score_1577836800.csv".data ∧
    specCollisionPath "x_noun_bow_topic-scores.csv".data "1577836800".data
      = "x_noun_bow_topic-scores_1577836800.csv".data ∧
    collisionPath "x_noun_bow_topic-scores.csv".data "1577836800".data
      ≠ specCollisionPath "x_noun_bow_topic-scores.csv".data "1577836800".data :=
  ⟨by decide, by decide, by decide⟩

end EvalLda
